import Mathlib

/-!
Shallow embedding of `src/app.py` (the "middleman" relay service).

The source is a FastAPI application over a SQLite database with four tables
(`deaths`, `mod_actions`, `commands`, `player_states`).  We embed the
database state as explicit lists of rows together with the AUTOINCREMENT
sequence counters (SQLite's `sqlite_sequence` entries: the next assigned
rowid of an AUTOINCREMENT table is always one more than the largest rowid
ever issued, even after deletions).  Each HTTP handler becomes a pure
function on this state.

Modelling conventions:
* Python/SQLite strings are `String`; SQLite `INTEGER` columns are `Int`
  (the `banned` column stores the integers 0/1, the source's encoding of
  false/true); AUTOINCREMENT ids are `Nat`.
* IEEE-754 position coordinates are carried as `Rat`: the source performs
  no arithmetic on them — they are only extracted from the request mapping
  and stored — so any carrier with decidable equality is faithful.
* `json.dumps`/`json.loads` of a payload mapping round-trip, so the
  `payload_json` column stores the mapping itself.
* Pydantic request validation (required fields, `min_length=1` on
  `instance_id`) is embedded as parse functions returning `Option`:
  `none` means the request is rejected (HTTP 422) before the handler body
  — and hence before any store interaction — runs.
-/

/-- A JSON-able Python value appearing in command payload mappings. -/
inductive PyVal where
  | str : String → PyVal
  | int : Int → PyVal
deriving DecidableEq, Repr

/-- A Python `Dict[str, Any]` payload, as a list of key/value pairs. -/
abbrev Payload := List (String × PyVal)

/-- Pydantic model `DeathEventIn` (fields after successful validation). -/
structure DeathEventIn where
  instance_id : String
  attacker : Option String
  victim : String
  cause : String
  position : Option (List (String × Rat))
  time : Option String
deriving DecidableEq, Repr

/-- Pydantic model `ModActionIn`. -/
structure ModActionIn where
  action : String
  player : String
  reason : Option String
  extra : Option Payload
deriving DecidableEq, Repr

/-- Pydantic model `StrikeActionIn`: a single required `player` field. -/
structure StrikeActionIn where
  player : String
deriving DecidableEq, Repr

/-- Pydantic model `RestoreIn`. -/
structure RestoreIn where
  player : String
  amount : Int
deriving DecidableEq, Repr

/-- Pydantic model `CommandQueueItem`: what `poll_commands` returns. -/
structure CommandQueueItem where
  id : Nat
  command : String
  payload : Payload
deriving DecidableEq, Repr

/-- Pydantic model `PlayerStateIn`.  The source declares
`banned : bool | int = 0`; both cases are carried as an `Int`
(`True`/`False` are the integers 1/0), and the handler truthiness test
`bool(body.banned)` becomes `≠ 0`. -/
structure PlayerStateIn where
  player : String
  strikes : Int
  banned : Int
  vestige : Int
deriving DecidableEq, Repr

/-- A row of the `deaths` table. -/
structure DeathRow where
  id : Nat
  instance_id : String
  attacker : Option String
  victim : String
  cause : String
  pos_x : Option Rat
  pos_y : Option Rat
  pos_z : Option Rat
  time : String
deriving DecidableEq, Repr

/-- A row of the `mod_actions` table. -/
structure ModRow where
  id : Nat
  time : String
  action : String
  player : String
  reason : Option String
  extra_json : Option Payload
deriving DecidableEq, Repr

/-- A row of the `commands` table. -/
structure CommandRow where
  id : Nat
  time : String
  command : String
  payload_json : Payload
deriving DecidableEq, Repr

/-- A row of the `player_states` table (primary key `player`). -/
structure PlayerRow where
  player : String
  strikes : Int
  banned : Int
  vestige : Int
  updated : String
deriving DecidableEq, Repr

/-- The whole persistent store: the four tables created by `init_db`,
plus the AUTOINCREMENT sequence counter of each AUTOINCREMENT table. -/
structure St where
  deaths : List DeathRow
  deathSeq : Nat
  mod_actions : List ModRow
  modSeq : Nat
  commands : List CommandRow
  cmdSeq : Nat
  player_states : List PlayerRow
deriving DecidableEq, Repr

/-- The freshly created (empty) database, as left by `init_db`. -/
def initSt : St := ⟨[], 0, [], 0, [], 0, []⟩

/-- Python's `a or b` for an optional string `a`: both `None` and the
empty string are falsy, so `event.time or now` yields `now` exactly when
`time` is absent or empty. -/
def pyOrStr (v : Option String) (dflt : String) : String :=
  match v with
  | none => dflt
  | some s => if s = "" then dflt else s

/-- Python `dict.get(k)` on the position mapping. -/
def dictGet (k : String) (d : List (String × Rat)) : Option Rat :=
  (d.find? (fun kv => kv.1 == k)).map (fun kv => kv.2)

/-- The row written for a death event: `INSERT OR REPLACE INTO deaths(...)`
with the columns computed by `post_death` (`when`, `pos_x/y/z`). -/
def deathRowOf (newId : Nat) (now : String) (e : DeathEventIn) : DeathRow :=
  { id := newId
    instance_id := e.instance_id
    attacker := e.attacker
    victim := e.victim
    cause := e.cause
    pos_x := e.position.bind (dictGet "x")
    pos_y := e.position.bind (dictGet "y")
    pos_z := e.position.bind (dictGet "z")
    time := pyOrStr e.time now }

/-- Handler body of `POST /death`.  `INSERT OR REPLACE` on the
`instance_id UNIQUE` column deletes any conflicting row and inserts a
fresh row, which receives a fresh AUTOINCREMENT id.  `now` is the value
of `datetime.utcnow().isoformat()` at this call. -/
def post_death (now : String) (s : St) (e : DeathEventIn) : St :=
  let newId := s.deathSeq + 1
  { s with
    deaths := s.deaths.filter (fun r => !(r.instance_id == e.instance_id))
      ++ [deathRowOf newId now e]
    deathSeq := newId }

/-- Handler body of `GET /deaths/instance/...`: the single row with that key,
or a 404 (`none`). -/
def get_death_instance (s : St) (instance_id : String) : Option DeathRow :=
  s.deaths.find? (fun r => r.instance_id == instance_id)

/-- Handler body of `POST /mod/action` (plain `INSERT`). -/
def post_mod_action (now : String) (s : St) (a : ModActionIn) : St :=
  let newId := s.modSeq + 1
  { s with
    mod_actions := s.mod_actions ++ [⟨newId, now, a.action, a.player, a.reason, a.extra⟩]
    modSeq := newId }

/-- The helper `enqueue_command`: `INSERT INTO commands(time, command, payload_json)`;
the AUTOINCREMENT id assigned to the new row is `cmdSeq + 1`. -/
def enqueue_command (now : String) (s : St) (command : String) (payload : Payload) : St :=
  let newId := s.cmdSeq + 1
  { s with
    commands := s.commands ++ [⟨newId, now, command, payload⟩]
    cmdSeq := newId }

/-- Handler body of `POST /command/restore`. -/
def command_restore (now : String) (s : St) (body : RestoreIn) : St :=
  enqueue_command now s "restore" [("player", .str body.player), ("amount", .int body.amount)]

/-- Handler body of `POST /command/strike`. -/
def command_strike (now : String) (s : St) (body : StrikeActionIn) : St :=
  enqueue_command now s "strike" [("player", .str body.player)]

/-- Handler body of `POST /command/ban`. -/
def command_ban (now : String) (s : St) (body : StrikeActionIn) : St :=
  enqueue_command now s "ban" [("player", .str body.player)]

/-- Handler body of `POST /command/unban`. -/
def command_unban (now : String) (s : St) (body : StrikeActionIn) : St :=
  enqueue_command now s "unban" [("player", .str body.player)]

/-- Handler body of `POST /command/kick`. -/
def command_kick (now : String) (s : St) (body : StrikeActionIn) : St :=
  enqueue_command now s "kick" [("player", .str body.player)]

/-- SQLite `LIMIT n`: a negative limit means "no upper bound on the number
of rows returned"; otherwise at most `n` rows. -/
def sqlLimit (n : Int) (l : List α) : List α :=
  if n < 0 then l else l.take n.toNat

/-- Handler body of `GET /commands/poll`: `SELECT id, time, command,
payload_json FROM commands ORDER BY id ASC LIMIT ?`, each row mapped to a
`CommandQueueItem`.  A read-only query: the store is not modified. -/
def poll_commands (s : St) (limit : Int) : List CommandQueueItem :=
  let rows := sqlLimit limit (s.commands.insertionSort (fun a b => a.id ≤ b.id))
  rows.map (fun r => ⟨r.id, r.command, r.payload_json⟩)

/-- Handler body of `POST /commands/ack`: on an empty id list it returns at
once; otherwise `DELETE FROM commands WHERE id IN (...)`.  It always
answers `{"ok": True}` — there is no error path. -/
def ack_commands (s : St) (ids : List Int) : St :=
  if ids = [] then s
  else { s with commands := s.commands.filter (fun c => !(ids.contains (c.id : Int))) }

/-- Handler body of `POST /player/state`: `INSERT ... ON CONFLICT(player) DO
UPDATE` — if a row with this primary key exists all its non-key columns
are overwritten in place, otherwise a new row is appended. -/
def update_player_state (now : String) (s : St) (body : PlayerStateIn) : St :=
  let banned_int : Int := if body.banned ≠ 0 then 1 else 0
  let row : PlayerRow := ⟨body.player, body.strikes, banned_int, body.vestige, now⟩
  { s with
    player_states :=
      if s.player_states.any (fun r => r.player == body.player) then
        s.player_states.map (fun r => if r.player == body.player then row else r)
      else
        s.player_states ++ [row] }

/-- The JSON object returned by `GET /player/state`.  When no row exists
the source answers the literal `{"player": p, "strikes": 0, "banned": 0,
"vestige": 0}` — with no `updated` key, hence `updated = none` here. -/
structure PlayerStateOut where
  player : String
  strikes : Int
  banned : Int
  vestige : Int
  updated : Option String
deriving DecidableEq, Repr

/-- Handler body of `GET /player/state`. -/
def get_player_state (s : St) (player : String) : PlayerStateOut :=
  match s.player_states.find? (fun r => r.player == player) with
  | some r => ⟨r.player, r.strikes, r.banned, r.vestige, some r.updated⟩
  | none => ⟨player, 0, 0, 0, none⟩

/-- Raw (pre-validation) request body for `POST /player/state`:
every JSON field may be absent. -/
structure PlayerStateReq where
  player : Option String
  strikes : Option Int
  banned : Option Int
  vestige : Option Int
deriving DecidableEq, Repr

/-- Raw (pre-validation) request body for `POST /death`. -/
structure DeathReq where
  instance_id : Option String
  attacker : Option String
  victim : Option String
  cause : Option String
  position : Option (List (String × Rat))
  time : Option String
deriving DecidableEq, Repr

/-- Pydantic validation of `PlayerStateIn`: `player : str` is required
(absence is a validation error) but carries no length constraint, and the
remaining fields default to 0. -/
def parsePlayerStateIn (r : PlayerStateReq) : Option PlayerStateIn :=
  match r.player with
  | none => none
  | some p => some ⟨p, r.strikes.getD 0, r.banned.getD 0, r.vestige.getD 0⟩

/-- Pydantic validation of `StrikeActionIn`: `player : str` is required,
with no length constraint. -/
def parseStrikeActionIn (player : Option String) : Option StrikeActionIn :=
  match player with
  | none => none
  | some p => some ⟨p⟩

/-- Pydantic validation of `DeathEventIn`: `instance_id` carries
`min_length=1`, so an empty string is rejected; `victim` and `cause` are
required with no length constraint. -/
def parseDeathEventIn (r : DeathReq) : Option DeathEventIn :=
  match r.instance_id, r.victim, r.cause with
  | some i, some v, some c =>
      if i.length < 1 then none
      else some ⟨i, r.attacker, v, c, r.position, r.time⟩
  | _, _, _ => none

/-- Endpoint `POST /player/state` including validation: `none` means the
request was rejected with HTTP 422 and the handler body never ran, so the
store is untouched. -/
def update_player_state_endpoint (now : String) (s : St) (r : PlayerStateReq) : Option St :=
  (parsePlayerStateIn r).map (update_player_state now s)

/-- Endpoint `POST /death` including validation. -/
def post_death_endpoint (now : String) (s : St) (r : DeathReq) : Option St :=
  (parseDeathEventIn r).map (post_death now s)

/-- One client operation against the service.  Each constructor carries
the wall-clock string the handler would read from `datetime.utcnow()`. -/
inductive Op where
  | restore (now : String) (b : RestoreIn)
  | strike (now : String) (b : StrikeActionIn)
  | ban (now : String) (b : StrikeActionIn)
  | unban (now : String) (b : StrikeActionIn)
  | kick (now : String) (b : StrikeActionIn)
  | poll (limit : Int)
  | ack (ids : List Int)
  | death (now : String) (e : DeathEventIn)
  | modAct (now : String) (a : ModActionIn)
  | upsert (now : String) (b : PlayerStateIn)

/-- The state transition performed by one operation.  `poll` only runs a
`SELECT`, so it leaves the store unchanged. -/
def step (s : St) : Op → St
  | .restore now b => command_restore now s b
  | .strike now b => command_strike now s b
  | .ban now b => command_ban now s b
  | .unban now b => command_unban now s b
  | .kick now b => command_kick now s b
  | .poll _ => s
  | .ack ids => ack_commands s ids
  | .death now e => post_death now s e
  | .modAct now a => post_mod_action now s a
  | .upsert now b => update_player_state now s b

/-- Run a sequence of operations from a state. -/
def run (s : St) : List Op → St
  | [] => s
  | op :: ops => run (step s op) ops

/-- Whether an operation is one of the five command-enqueueing endpoints. -/
def Op.isEnqueue : Op → Bool
  | .restore .. => true
  | .strike .. => true
  | .ban .. => true
  | .unban .. => true
  | .kick .. => true
  | _ => false

/-- The command ids assigned by the store along a trace, in order: each
enqueueing operation inserts a row whose AUTOINCREMENT id is the current
sequence value plus one. -/
def assignedIds (s : St) : List Op → List Nat
  | [] => []
  | op :: ops =>
      if op.isEnqueue then (s.cmdSeq + 1) :: assignedIds (step s op) ops
      else assignedIds (step s op) ops

/-! ### Generic facts about `step` and the command table -/

/-- Effect of one operation on the `commands` table: either it appends a
single row carrying the next AUTOINCREMENT id (the five enqueue
endpoints), or it leaves the sequence counter alone and keeps a sublist
of the rows (deletion by `ack_commands`, or no change at all). -/
theorem step_commands_spec (s : St) (op : Op) :
    (∃ row : CommandRow, row.id = s.cmdSeq + 1 ∧
        (step s op).commands = s.commands ++ [row] ∧
        (step s op).cmdSeq = s.cmdSeq + 1) ∨
    ((step s op).cmdSeq = s.cmdSeq ∧ (step s op).commands.Sublist s.commands) := by
  cases op with
  | restore now b =>
      exact Or.inl ⟨⟨s.cmdSeq + 1, now, "restore",
        [("player", .str b.player), ("amount", .int b.amount)]⟩, rfl, rfl, rfl⟩
  | strike now b =>
      exact Or.inl ⟨⟨s.cmdSeq + 1, now, "strike", [("player", .str b.player)]⟩, rfl, rfl, rfl⟩
  | ban now b =>
      exact Or.inl ⟨⟨s.cmdSeq + 1, now, "ban", [("player", .str b.player)]⟩, rfl, rfl, rfl⟩
  | unban now b =>
      exact Or.inl ⟨⟨s.cmdSeq + 1, now, "unban", [("player", .str b.player)]⟩, rfl, rfl, rfl⟩
  | kick now b =>
      exact Or.inl ⟨⟨s.cmdSeq + 1, now, "kick", [("player", .str b.player)]⟩, rfl, rfl, rfl⟩
  | poll n => exact Or.inr ⟨rfl, List.Sublist.refl _⟩
  | ack ids =>
      refine Or.inr ?_
      by_cases h : ids = []
      · subst h
        simp [step, ack_commands]
      · constructor
        · simp [step, ack_commands, if_neg h]
        · simp only [step, ack_commands, if_neg h]
          exact List.filter_sublist _
  | death now e => exact Or.inr ⟨rfl, List.Sublist.refl _⟩
  | modAct now a => exact Or.inr ⟨rfl, List.Sublist.refl _⟩
  | upsert now b => exact Or.inr ⟨rfl, List.Sublist.refl _⟩

/-- The command sequence counter never decreases. -/
theorem cmdSeq_le_step (s : St) (op : Op) : s.cmdSeq ≤ (step s op).cmdSeq := by
  rcases step_commands_spec s op with ⟨row, _, _, h⟩ | ⟨h, _⟩ <;> omega

/-- The command sequence counter never decreases along a trace. -/
theorem cmdSeq_le_run (ops : List Op) : ∀ s : St, s.cmdSeq ≤ (run s ops).cmdSeq := by
  induction ops with
  | nil => intro s; exact Nat.le_refl _
  | cons op ops ih =>
      intro s
      exact Nat.le_trans (cmdSeq_le_step s op) (ih (step s op))

/-- An enqueueing operation advances the command sequence counter by one. -/
theorem cmdSeq_step_enq (s : St) (op : Op) (h : op.isEnqueue = true) :
    (step s op).cmdSeq = s.cmdSeq + 1 := by
  cases op <;> simp_all [Op.isEnqueue, step, command_restore, command_strike, command_ban,
    command_unban, command_kick, enqueue_command]

/-- Invariant of the `commands` table: every live id is at most the
sequence counter, and the rows are strictly sorted by id. -/
def CmdInv (s : St) : Prop :=
  (∀ c ∈ s.commands, c.id ≤ s.cmdSeq) ∧ s.commands.Pairwise (fun a b => a.id < b.id)

theorem cmdInv_initSt : CmdInv initSt := by
  constructor
  · intro c hc; simp [initSt] at hc
  · simp [initSt]

theorem cmdInv_step (s : St) (op : Op) (h : CmdInv s) : CmdInv (step s op) := by
  obtain ⟨hbound, hsorted⟩ := h
  rcases step_commands_spec s op with ⟨row, hid, hcmds, hseq⟩ | ⟨hseq, hsub⟩
  · constructor
    · intro c hc
      rw [hcmds] at hc
      rw [hseq]
      rcases List.mem_append.1 hc with hc | hc
      · exact Nat.le_trans (hbound c hc) (Nat.le_succ _)
      · simp only [List.mem_singleton] at hc
        subst hc; omega
    · rw [hcmds]
      refine List.pairwise_append.2 ⟨hsorted, List.pairwise_singleton _ _, ?_⟩
      intro a ha b hb
      simp only [List.mem_singleton] at hb
      subst hb
      have := hbound a ha
      omega
  · constructor
    · intro c hc
      rw [hseq]
      exact hbound c (hsub.subset hc)
    · exact hsorted.sublist hsub

theorem cmdInv_run (ops : List Op) : ∀ s : St, CmdInv s → CmdInv (run s ops) := by
  induction ops with
  | nil => intro s h; exact h
  | cons op ops ih => intro s h; exact ih (step s op) (cmdInv_step s op h)

/-- The ids a trace assigns are strictly increasing, and all exceed the
sequence counter of the starting state. -/
theorem assignedIds_spec (ops : List Op) : ∀ s : St,
    (assignedIds s ops).Pairwise (· < ·) ∧ ∀ i ∈ assignedIds s ops, s.cmdSeq < i := by
  induction ops with
  | nil => intro s; simp [assignedIds]
  | cons op ops ih =>
      intro s
      obtain ⟨ihp, ihb⟩ := ih (step s op)
      by_cases h : op.isEnqueue = true
      · have hseq := cmdSeq_step_enq s op h
        constructor
        · simp only [assignedIds, h, if_true]
          refine List.Pairwise.cons ?_ ihp
          intro j hj
          have := ihb j hj
          omega
        · intro i hi
          simp only [assignedIds, h, if_true, List.mem_cons] at hi
          rcases hi with hi | hi
          · omega
          · have := ihb i hi
            have := cmdSeq_le_step s op
            omega
      · simp only [assignedIds, h, if_false, Bool.false_eq_true] at *
        refine ⟨ihp, fun i hi => ?_⟩
        have := ihb i hi
        have := cmdSeq_le_step s op
        omega

/-- C1: for every sequence of operations starting from the fresh store,
the ids assigned by the store to enqueued commands (via
`command_restore`, `command_strike`, `command_ban`, `command_unban`,
`command_kick`, all of which insert through `enqueue_command` into the
AUTOINCREMENT `commands` table) are strictly increasing in enqueue order
— hence pairwise distinct — and in the resulting store no two live
commands share an id. -/
theorem enqueue_ids_strictly_increasing (ops : List Op) :
    (assignedIds initSt ops).Pairwise (· < ·) ∧
    ((run initSt ops).commands.map CommandRow.id).Nodup := by
  constructor
  · exact (assignedIds_spec ops initSt).1
  · have hinv := cmdInv_run ops initSt cmdInv_initSt
    have hp : ((run initSt ops).commands.map CommandRow.id).Pairwise (· < ·) :=
      List.pairwise_map.2 hinv.2
    exact hp.imp Nat.ne_of_lt

/-! ### Facts about `poll_commands` -/

/-- The truncation `sqlLimit` never invents rows: its output is a sublist of its input. -/
theorem sqlLimit_sublist (n : Int) (l : List α) : (sqlLimit n l).Sublist l := by
  unfold sqlLimit
  by_cases h : n < 0
  · rw [if_pos h]
  · rw [if_neg h]
    exact List.take_sublist _ _

/-- On a store whose `commands` rows are strictly sorted by id (true of
every reachable store), the `ORDER BY id ASC` of `poll_commands` leaves
the rows as they are. -/
theorem poll_commands_eq_of_sorted (s : St) (n : Int)
    (h : s.commands.Pairwise (fun a b => a.id < b.id)) :
    poll_commands s n
      = (sqlLimit n s.commands).map (fun r => ⟨r.id, r.command, r.payload_json⟩) := by
  unfold poll_commands
  rw [List.Sorted.insertionSort_eq]
  exact h.imp Nat.le_of_lt

/-- Every item `poll_commands` returns comes from a live row of the
`commands` table, with its `id`, `command` and parsed payload. -/
theorem poll_commands_mem (s : St) (n : Int) (it : CommandQueueItem)
    (h : it ∈ poll_commands s n) :
    ∃ c ∈ s.commands, it = ⟨c.id, c.command, c.payload_json⟩ := by
  unfold poll_commands at h
  simp only [List.mem_map] at h
  obtain ⟨c, hc, rfl⟩ := h
  have hmem : c ∈ s.commands.insertionSort (fun a b => a.id ≤ b.id) :=
    (sqlLimit_sublist _ _).subset hc
  exact ⟨c, (List.mem_insertionSort _).1 hmem, rfl⟩

/-- C2 (amended): for every reachable store and every nonnegative page
size, `poll_commands` returns at most `n` items, all of them live
commands, ordered by strictly ascending id; polling performs no write
(the store after the poll is the store before it) and is idempotent
(a second poll with no intervening operation returns the same list). -/
theorem poll_commands_spec (ops : List Op) (n : Int) (hn : 0 ≤ n) :
    ((poll_commands (run initSt ops) n).length : Int) ≤ n ∧
    ((poll_commands (run initSt ops) n).map CommandQueueItem.id).Pairwise (· < ·) ∧
    (∀ it ∈ poll_commands (run initSt ops) n,
        ∃ c ∈ (run initSt ops).commands, it = ⟨c.id, c.command, c.payload_json⟩) ∧
    step (run initSt ops) (Op.poll n) = run initSt ops ∧
    poll_commands (step (run initSt ops) (Op.poll n)) n = poll_commands (run initSt ops) n := by
  have hinv := cmdInv_run ops initSt cmdInv_initSt
  have heq := poll_commands_eq_of_sorted (run initSt ops) n hinv.2
  refine ⟨?_, ?_, ?_, rfl, rfl⟩
  · rw [heq, List.length_map]
    have hnn : ¬ n < 0 := by omega
    unfold sqlLimit
    rw [if_neg hnn]
    have := List.length_take_le n.toNat (run initSt ops).commands
    omega
  · rw [heq, List.map_map]
    have hsub : (sqlLimit n (run initSt ops).commands).Sublist (run initSt ops).commands :=
      sqlLimit_sublist _ _
    have hpw : (sqlLimit n (run initSt ops).commands).Pairwise (fun a b => a.id < b.id) :=
      hinv.2.sublist hsub
    exact List.pairwise_map.2 hpw
  · intro it hit
    exact poll_commands_mem _ _ _ hit

/-- Closed instance of `poll_commands_spec` at page size 10 on the store
reached by one enqueue, discharging its hypothesis. -/
theorem poll_commands_spec_witness :
    (0 : Int) ≤ 10 ∧
    (((poll_commands (run initSt [Op.ban "t0" ⟨"alice"⟩]) 10).length : Int) ≤ 10 ∧
      ((poll_commands (run initSt [Op.ban "t0" ⟨"alice"⟩]) 10).map
        CommandQueueItem.id).Pairwise (· < ·) ∧
      (∀ it ∈ poll_commands (run initSt [Op.ban "t0" ⟨"alice"⟩]) 10,
          ∃ c ∈ (run initSt [Op.ban "t0" ⟨"alice"⟩]).commands,
            it = ⟨c.id, c.command, c.payload_json⟩) ∧
      step (run initSt [Op.ban "t0" ⟨"alice"⟩]) (Op.poll 10) = run initSt [Op.ban "t0" ⟨"alice"⟩] ∧
      poll_commands (step (run initSt [Op.ban "t0" ⟨"alice"⟩]) (Op.poll 10)) 10
        = poll_commands (run initSt [Op.ban "t0" ⟨"alice"⟩]) 10) :=
  ⟨by decide, poll_commands_spec [Op.ban "t0" ⟨"alice"⟩] 10 (by decide)⟩

/-- C2 (counterexample to the claim as stated, which quantifies over
every `maxItems` value): SQLite treats a negative `LIMIT` as "no upper
bound", so a poll with `maxItems = -1` against a store holding one live
command returns one item — more than `maxItems`. -/
theorem poll_negative_limit_counterexample :
    ¬ (((poll_commands (run initSt [Op.ban "t0" ⟨"alice"⟩]) (-1)).length : Int) ≤ -1) := by
  decide

/-! ### Acknowledged ids never reappear (for ids the store has issued) -/

/-- The id `i` is retired with respect to store `s`: the id counter has reached
`i` (so `i` can never be assigned again) and no live command carries it. -/
def Retired (i : Nat) (s : St) : Prop :=
  i ≤ s.cmdSeq ∧ ∀ c ∈ s.commands, c.id ≠ i

theorem retired_step (i : Nat) (s : St) (op : Op) (h : Retired i s) :
    Retired i (step s op) := by
  obtain ⟨hle, hnc⟩ := h
  rcases step_commands_spec s op with ⟨row, hid, hcmds, hseq⟩ | ⟨hseq, hsub⟩
  · refine ⟨by omega, ?_⟩
    intro c hc
    rw [hcmds] at hc
    rcases List.mem_append.1 hc with hc | hc
    · exact hnc c hc
    · simp only [List.mem_singleton] at hc
      subst hc
      omega
  · exact ⟨by omega, fun c hc => hnc c (hsub.subset hc)⟩

theorem retired_run (ops : List Op) : ∀ s : St, ∀ i : Nat,
    Retired i s → Retired i (run s ops) := by
  induction ops with
  | nil => intro s i h; exact h
  | cons op ops ih => intro s i h; exact ih (step s op) i (retired_step i s op h)

/-- Acknowledging a set containing an already-issued id `i` retires it. -/
theorem ack_retires (s : St) (ids : List Int) (i : Nat)
    (hmem : (i : Int) ∈ ids) (hle : i ≤ s.cmdSeq) :
    Retired i (ack_commands s ids) := by
  have hne : ids ≠ [] := by
    intro h
    subst h
    simp at hmem
  unfold ack_commands
  rw [if_neg hne]
  refine ⟨hle, ?_⟩
  intro c hc heq
  have hp := List.of_mem_filter hc
  have hm : (c.id : Int) ∈ ids := heq ▸ hmem
  have helem : ids.contains (c.id : Int) = true := List.elem_eq_true_of_mem hm
  rw [helem] at hp
  simp at hp

/-- C3 (amended): once an id the store has already issued (`i ≤ cmdSeq`)
is passed to `ack_commands`, no later `poll_commands` — after any further
sequence of operations — ever returns an item with that id. -/
theorem acked_issued_id_never_polled (ops1 : List Op) (ids : List Int) (i : Nat)
    (hmem : (i : Int) ∈ ids) (hiss : i ≤ (run initSt ops1).cmdSeq)
    (ops2 : List Op) (n : Int) :
    i ∉ (poll_commands (run (step (run initSt ops1) (Op.ack ids)) ops2) n).map
        CommandQueueItem.id := by
  intro hin
  have h1 : Retired i (step (run initSt ops1) (Op.ack ids)) :=
    ack_retires (run initSt ops1) ids i hmem hiss
  have h2 : Retired i (run (step (run initSt ops1) (Op.ack ids)) ops2) :=
    retired_run ops2 _ i h1
  simp only [List.mem_map] at hin
  obtain ⟨it, hit, hid⟩ := hin
  obtain ⟨c, hc, rfl⟩ := poll_commands_mem _ _ _ hit
  exact h2.2 c hc hid

/-- Closed instance of `acked_issued_id_never_polled`: id 1 is enqueued,
acknowledged, and after a further enqueue a poll no longer returns 1. -/
theorem acked_issued_id_never_polled_witness :
    ((1 : Int) ∈ [(1 : Int)] ∧ 1 ≤ (run initSt [Op.ban "t0" ⟨"alice"⟩]).cmdSeq) ∧
    (1 : Nat) ∉ (poll_commands (run (step (run initSt [Op.ban "t0" ⟨"alice"⟩]) (Op.ack [1]))
        [Op.kick "t1" ⟨"bob"⟩]) 25).map CommandQueueItem.id :=
  ⟨⟨by decide, by decide⟩,
    acked_issued_id_never_polled [Op.ban "t0" ⟨"alice"⟩] [1] 1 (by decide) (by decide)
      [Op.kick "t1" ⟨"bob"⟩] 25⟩

/-- C3 (counterexample to the claim as stated): the claim quantifies over
every id ever passed to `ack_commands`, including ids the AUTOINCREMENT
counter has not issued yet.  Acknowledging the never-issued id 1 on the
fresh store is a no-op on an empty table, after which the first enqueue
is assigned id 1 — and a poll returns it. -/
theorem acked_unissued_id_polled_counterexample :
    (1 : Nat) ∈ (poll_commands (run initSt [Op.ack [1], Op.kick "t1" ⟨"bob"⟩]) 25).map
      CommandQueueItem.id := by
  decide

/-! ### Acknowledge is exact deletion and a no-op on non-live ids -/

/-- C4: `ack_commands` always succeeds (it is a total function with no
error path) and its whole effect is to delete from the `commands` table
exactly the live rows whose id is named — every other command and all
other tables, as well as the id counter, are untouched.  When no live
command is named (ids already acknowledged, or never issued), the store
is left completely unchanged. -/
theorem ack_commands_spec (s : St) (ids : List Int) :
    ack_commands s ids
      = { s with commands := s.commands.filter (fun c => !(ids.contains (c.id : Int))) } ∧
    ((∀ c ∈ s.commands, (c.id : Int) ∉ ids) → ack_commands s ids = s) := by
  constructor
  · by_cases h : ids = []
    · subst h
      unfold ack_commands
      rw [if_pos rfl]
      have hf : s.commands.filter (fun c => !(([] : List Int).contains (c.id : Int)))
          = s.commands :=
        List.filter_eq_self.2 (fun c _ => rfl)
      rw [hf]
    · unfold ack_commands
      rw [if_neg h]
  · intro hall
    by_cases h : ids = []
    · subst h
      unfold ack_commands
      rw [if_pos rfl]
    · unfold ack_commands
      rw [if_neg h]
      have hf : s.commands.filter (fun c => !(ids.contains (c.id : Int))) = s.commands := by
        refine List.filter_eq_self.2 (fun c hc => ?_)
        have : ids.contains (c.id : Int) = false := by
          rw [show ids.contains (c.id : Int) = ids.elem (c.id : Int) from rfl,
            List.elem_eq_mem]
          simp [hall c hc]
        rw [this]
        rfl
      rw [hf]

/-- Closed instance of `ack_commands_spec`: acknowledging the
never-issued id 999 against a store holding one command changes nothing
(the spec's Scenario D). -/
theorem ack_commands_spec_witness :
    (∀ c ∈ (run initSt [Op.ban "t0" ⟨"alice"⟩]).commands, (c.id : Int) ∉ [(999 : Int)]) ∧
    ack_commands (run initSt [Op.ban "t0" ⟨"alice"⟩]) [999]
      = run initSt [Op.ban "t0" ⟨"alice"⟩] :=
  ⟨by decide, (ack_commands_spec (run initSt [Op.ban "t0" ⟨"alice"⟩]) [999]).2 (by decide)⟩

/-! ### Death-event ingestion: replace-on-key semantics -/

/-- The event-supplied columns of a stored death row — everything except
the store-assigned AUTOINCREMENT `id`. -/
def DeathRow.eventFields (r : DeathRow) :
    String × Option String × String × String × Option Rat × Option Rat × Option Rat × String :=
  (r.instance_id, r.attacker, r.victim, r.cause, r.pos_x, r.pos_y, r.pos_z, r.time)

/-- After `post_death`, the rows carrying the submitted `instance_id` are
exactly the one fresh row just written. -/
theorem post_death_filter_key (s : St) (now : String) (e : DeathEventIn) :
    (post_death now s e).deaths.filter (fun r => r.instance_id == e.instance_id)
      = [deathRowOf (s.deathSeq + 1) now e] := by
  unfold post_death
  rw [List.filter_append, List.filter_filter]
  simp [deathRowOf]

/-- The handler `post_death` leaves every row with a different `instance_id` alone. -/
theorem post_death_filter_other (s : St) (now : String) (e : DeathEventIn) :
    (post_death now s e).deaths.filter (fun r => !(r.instance_id == e.instance_id))
      = s.deaths.filter (fun r => !(r.instance_id == e.instance_id)) := by
  unfold post_death
  rw [List.filter_append, List.filter_filter]
  simp [deathRowOf]

/-- C5: after two death-event submissions with the same `instance_id`
(from any starting store), the store holds exactly one death record with
that key, and its event-supplied columns are those of the second call
(attacker, victim, cause, position and the timestamp computed from the
second call). -/
theorem death_resubmission_single_record (s : St) (now1 now2 : String)
    (e1 e2 : DeathEventIn) (_hkey : e1.instance_id = e2.instance_id) :
    ((post_death now2 (post_death now1 s e1) e2).deaths.filter
        (fun r => r.instance_id == e2.instance_id)).length = 1 ∧
    ((post_death now2 (post_death now1 s e1) e2).deaths.filter
        (fun r => r.instance_id == e2.instance_id)).map DeathRow.eventFields
      = [(e2.instance_id, e2.attacker, e2.victim, e2.cause,
          e2.position.bind (dictGet "x"), e2.position.bind (dictGet "y"),
          e2.position.bind (dictGet "z"), pyOrStr e2.time now2)] := by
  rw [post_death_filter_key]
  exact ⟨rfl, rfl⟩

/-- Closed instance of `death_resubmission_single_record`: the spec's
Scenario B (same key "e1", cause "fall" then "fire"). -/
theorem death_resubmission_single_record_witness :
    (DeathEventIn.instance_id ⟨"e1", none, "bob", "fall", none, none⟩
      = DeathEventIn.instance_id ⟨"e1", none, "bob", "fire", none, none⟩) ∧
    (((post_death "n2" (post_death "n1" initSt ⟨"e1", none, "bob", "fall", none, none⟩)
          ⟨"e1", none, "bob", "fire", none, none⟩).deaths.filter
        (fun r => r.instance_id
          == DeathEventIn.instance_id ⟨"e1", none, "bob", "fire", none, none⟩)).length = 1 ∧
      ((post_death "n2" (post_death "n1" initSt ⟨"e1", none, "bob", "fall", none, none⟩)
          ⟨"e1", none, "bob", "fire", none, none⟩).deaths.filter
        (fun r => r.instance_id
          == DeathEventIn.instance_id ⟨"e1", none, "bob", "fire", none, none⟩)).map
          DeathRow.eventFields
        = [("e1", none, "bob", "fire", none, none, none, pyOrStr none "n2")]) :=
  ⟨rfl, death_resubmission_single_record initSt "n1" "n2"
    ⟨"e1", none, "bob", "fall", none, none⟩ ⟨"e1", none, "bob", "fire", none, none⟩ rfl⟩

/-- C6 (counterexample to the claim as stated): re-submitting an
identical death event with an explicit timestamp is *not* idempotent on
the full stored state, because `INSERT OR REPLACE` deletes the old row
and inserts a fresh one that receives a new AUTOINCREMENT id (and
advances the id sequence): after the retry the single stored record has
id 2, after the first submission it had id 1. -/
theorem death_retry_counterexample :
    post_death "n2" (post_death "n1" initSt ⟨"e1", none, "bob", "fall", none, some "T"⟩)
        ⟨"e1", none, "bob", "fall", none, some "T"⟩
      ≠ post_death "n1" initSt ⟨"e1", none, "bob", "fall", none, some "T"⟩ := by
  decide

/-- C6 (amended): re-submitting an identical death event that carries an
explicit (non-empty) timestamp is idempotent on everything the caller
supplied: the single record stored under the key keeps identical
event-supplied columns, rows under other keys are untouched, and the
other tables are untouched.  Only the store-assigned row id (and the id
sequence) differ between the two states. -/
theorem death_retry_explicit_time_idempotent_fields (s : St) (now1 now2 t : String)
    (e : DeathEventIn) (ht : e.time = some t) (hne : t ≠ "") :
    ((post_death now2 (post_death now1 s e) e).deaths.filter
        (fun r => r.instance_id == e.instance_id)).map DeathRow.eventFields
      = ((post_death now1 s e).deaths.filter
          (fun r => r.instance_id == e.instance_id)).map DeathRow.eventFields ∧
    (post_death now2 (post_death now1 s e) e).deaths.filter
        (fun r => !(r.instance_id == e.instance_id))
      = (post_death now1 s e).deaths.filter (fun r => !(r.instance_id == e.instance_id)) ∧
    (post_death now2 (post_death now1 s e) e).commands = (post_death now1 s e).commands ∧
    (post_death now2 (post_death now1 s e) e).player_states
      = (post_death now1 s e).player_states ∧
    (post_death now2 (post_death now1 s e) e).mod_actions
      = (post_death now1 s e).mod_actions := by
  refine ⟨?_, ?_, rfl, rfl, rfl⟩
  · rw [post_death_filter_key, post_death_filter_key]
    simp [DeathRow.eventFields, deathRowOf, pyOrStr, ht, hne]
  · rw [post_death_filter_other]

/-- Closed instance of `death_retry_explicit_time_idempotent_fields` at
an explicit timestamp "T". -/
theorem death_retry_explicit_time_idempotent_fields_witness :
    (DeathEventIn.time ⟨"e1", none, "bob", "fall", none, some "T"⟩ = some "T" ∧
      ("T" : String) ≠ "") ∧
    ((post_death "n2" (post_death "n1" initSt ⟨"e1", none, "bob", "fall", none, some "T"⟩)
          ⟨"e1", none, "bob", "fall", none, some "T"⟩).deaths.filter
        (fun r => r.instance_id
          == DeathEventIn.instance_id ⟨"e1", none, "bob", "fall", none, some "T"⟩)).map
        DeathRow.eventFields
      = ((post_death "n1" initSt ⟨"e1", none, "bob", "fall", none, some "T"⟩).deaths.filter
          (fun r => r.instance_id
            == DeathEventIn.instance_id ⟨"e1", none, "bob", "fall", none, some "T"⟩)).map
          DeathRow.eventFields :=
  ⟨⟨rfl, by decide⟩,
    (death_retry_explicit_time_idempotent_fields initSt "n1" "n2" "T"
      ⟨"e1", none, "bob", "fall", none, some "T"⟩ rfl (by decide)).1⟩

/-- C7 (counterexample to the claim as stated): a caller-supplied empty
timestamp string is falsy in Python, so `event.time or utcnow()` stores
the ingestion time "NOW" instead of the supplied value "". -/
theorem occurredAt_empty_supplied_counterexample :
    ((post_death "NOW" initSt ⟨"i1", none, "v", "c", none, some ""⟩).deaths.map
      DeathRow.time) = ["NOW"] ∧ ("NOW" : String) ≠ "" := by
  decide

/-- C7 (amended): the stored timestamp of the record written by
`post_death` equals the caller-supplied value whenever the caller
supplies a *non-empty* one, and equals the ingestion wall-clock time
(read once for the call) when the caller omits the field — or supplies
the empty string, which Python's `or` treats as absent. -/
theorem occurredAt_stored_spec (s : St) (now : String) (e : DeathEventIn) :
    (∀ t, e.time = some t → t ≠ "" →
      ((post_death now s e).deaths.filter (fun r => r.instance_id == e.instance_id)).map
        DeathRow.time = [t]) ∧
    (e.time = none →
      ((post_death now s e).deaths.filter (fun r => r.instance_id == e.instance_id)).map
        DeathRow.time = [now]) ∧
    (e.time = some "" →
      ((post_death now s e).deaths.filter (fun r => r.instance_id == e.instance_id)).map
        DeathRow.time = [now]) := by
  refine ⟨?_, ?_, ?_⟩
  · intro t ht hne
    rw [post_death_filter_key]
    simp [deathRowOf, pyOrStr, ht, hne]
  · intro ht
    rw [post_death_filter_key]
    simp [deathRowOf, pyOrStr, ht]
  · intro ht
    rw [post_death_filter_key]
    simp [deathRowOf, pyOrStr, ht]

/-- Closed instance of `occurredAt_stored_spec`: a supplied timestamp
"T" is stored verbatim. -/
theorem occurredAt_stored_spec_witness :
    (DeathEventIn.time ⟨"i1", none, "v", "c", none, some "T"⟩ = some "T" ∧
      ("T" : String) ≠ "") ∧
    ((post_death "NOW" initSt ⟨"i1", none, "v", "c", none, some "T"⟩).deaths.filter
        (fun r => r.instance_id
          == DeathEventIn.instance_id ⟨"i1", none, "v", "c", none, some "T"⟩)).map
      DeathRow.time = ["T"] :=
  ⟨⟨rfl, by decide⟩,
    (occurredAt_stored_spec initSt "NOW" ⟨"i1", none, "v", "c", none, some "T"⟩).1 "T" rfl
      (by decide)⟩

/-! ### Player state: defaults, validation, and the strikes column -/

/-- Whether an operation is an upsert for the given player name. -/
def Op.upsertsPlayer (p : String) : Op → Bool
  | .upsert _ b => b.player == p
  | _ => false

/-- If no stored record carries player `p` and the operation is not an
upsert for `p`, then afterwards no stored record carries `p`. -/
theorem no_record_step (s : St) (op : Op) (p : String)
    (hop : Op.upsertsPlayer p op = false)
    (h : ∀ r ∈ s.player_states, (r.player == p) = false) :
    ∀ r ∈ (step s op).player_states, (r.player == p) = false := by
  cases op with
  | upsert now b =>
      simp only [Op.upsertsPlayer] at hop
      intro r hr
      simp only [step, update_player_state] at hr
      by_cases hex : s.player_states.any (fun q => q.player == b.player)
      · rw [if_pos hex] at hr
        obtain ⟨q, hq, hmap⟩ := List.mem_map.1 hr
        by_cases hqb : (q.player == b.player) = true
        · rw [if_pos hqb] at hmap
          rw [← hmap]
          exact hop
        · rw [if_neg hqb] at hmap
          rw [← hmap]
          exact h q hq
      · rw [if_neg hex] at hr
        rcases List.mem_append.1 hr with hr | hr
        · exact h r hr
        · simp only [List.mem_singleton] at hr
          rw [hr]
          exact hop
  | ack ids =>
      intro r hr
      apply h
      have hps : (step s (Op.ack ids)).player_states = s.player_states := by
        show (ack_commands s ids).player_states = s.player_states
        unfold ack_commands
        split <;> rfl
      rwa [hps] at hr
  | restore now b => exact h
  | strike now b => exact h
  | ban now b => exact h
  | unban now b => exact h
  | kick now b => exact h
  | poll n => exact h
  | death now e => exact h
  | modAct now a => exact h

theorem no_record_run (ops : List Op) : ∀ s : St, ∀ p : String,
    (∀ op ∈ ops, Op.upsertsPlayer p op = false) →
    (∀ r ∈ s.player_states, (r.player == p) = false) →
    ∀ r ∈ (run s ops).player_states, (r.player == p) = false := by
  induction ops with
  | nil => intro s p _ h; exact h
  | cons op ops ih =>
      intro s p hops h
      exact ih (step s op) p (fun o ho => hops o (List.mem_cons_of_mem _ ho))
        (no_record_step s op p (hops op (List.mem_cons_self _ _)) h)

/-- C8: for every trace containing no `upsertPlayerState` call for
player `p`, `get_player_state` answers the zero-value default
`{player: p, strikes: 0, banned: 0, vestige: 0}` (with no `updated` key)
rather than an error; `banned = 0` is the source's stored-integer
encoding of `false`. -/
theorem get_player_state_default (ops : List Op) (p : String)
    (h : ∀ op ∈ ops, Op.upsertsPlayer p op = false) :
    get_player_state (run initSt ops) p = ⟨p, 0, 0, 0, none⟩ := by
  have hno : ∀ r ∈ (run initSt ops).player_states, (r.player == p) = false :=
    no_record_run ops initSt p h (by intro r hr; simp [initSt] at hr)
  have hfind : (run initSt ops).player_states.find? (fun r => r.player == p) = none :=
    List.find?_eq_none.2 (fun x hx => by simp [hno x hx])
  unfold get_player_state
  rw [hfind]

/-- Closed instance of `get_player_state_default`: after an upsert for
"bob", reading "alice" yields the zero-value default. -/
theorem get_player_state_default_witness :
    (∀ op ∈ [Op.upsert "t" ⟨"bob", 1, 1, 0⟩], Op.upsertsPlayer "alice" op = false) ∧
    get_player_state (run initSt [Op.upsert "t" ⟨"bob", 1, 1, 0⟩]) "alice"
      = ⟨"alice", 0, 0, 0, none⟩ :=
  ⟨by decide, get_player_state_default [Op.upsert "t" ⟨"bob", 1, 1, 0⟩] "alice" (by decide)⟩

/-- Whether an operation only ever submits a non-negative strikes count. -/
def Op.strikesNonneg : Op → Bool
  | .upsert _ b => decide (0 ≤ b.strikes)
  | _ => true

theorem strikes_nonneg_step (s : St) (op : Op) (hop : op.strikesNonneg = true)
    (h : ∀ r ∈ s.player_states, 0 ≤ r.strikes) :
    ∀ r ∈ (step s op).player_states, 0 ≤ r.strikes := by
  cases op with
  | upsert now b =>
      simp only [Op.strikesNonneg, decide_eq_true_eq] at hop
      intro r hr
      simp only [step, update_player_state] at hr
      by_cases hex : s.player_states.any (fun q => q.player == b.player)
      · rw [if_pos hex] at hr
        obtain ⟨q, hq, hmap⟩ := List.mem_map.1 hr
        by_cases hqb : (q.player == b.player) = true
        · rw [if_pos hqb] at hmap
          rw [← hmap]
          exact hop
        · rw [if_neg hqb] at hmap
          rw [← hmap]
          exact h q hq
      · rw [if_neg hex] at hr
        rcases List.mem_append.1 hr with hr | hr
        · exact h r hr
        · simp only [List.mem_singleton] at hr
          rw [hr]
          exact hop
  | ack ids =>
      intro r hr
      apply h
      have hps : (step s (Op.ack ids)).player_states = s.player_states := by
        show (ack_commands s ids).player_states = s.player_states
        unfold ack_commands
        split <;> rfl
      rwa [hps] at hr
  | restore now b => exact h
  | strike now b => exact h
  | ban now b => exact h
  | unban now b => exact h
  | kick now b => exact h
  | poll n => exact h
  | death now e => exact h
  | modAct now a => exact h

theorem strikes_nonneg_run (ops : List Op) : ∀ s : St,
    (∀ op ∈ ops, Op.strikesNonneg op = true) →
    (∀ r ∈ s.player_states, 0 ≤ r.strikes) →
    ∀ r ∈ (run s ops).player_states, 0 ≤ r.strikes := by
  induction ops with
  | nil => intro s _ h; exact h
  | cons op ops ih =>
      intro s hops h
      exact ih (step s op) (fun o ho => hops o (List.mem_cons_of_mem _ ho))
        (strikes_nonneg_step s op (hops op (List.mem_cons_self _ _)) h)

/-- C10 (amended): along every trace whose upserts all submit a
non-negative strikes value, every stored player record has non-negative
strikes and `get_player_state` never answers a negative strikes value.
(The source itself enforces no such bound: `PlayerStateIn.strikes` is an
unconstrained integer — see the counterexample.) -/
theorem strikes_nonneg_if_inputs_nonneg (ops : List Op)
    (h : ∀ op ∈ ops, Op.strikesNonneg op = true) :
    (∀ r ∈ (run initSt ops).player_states, 0 ≤ r.strikes) ∧
    ∀ p, 0 ≤ (get_player_state (run initSt ops) p).strikes := by
  have hs : ∀ r ∈ (run initSt ops).player_states, 0 ≤ r.strikes :=
    strikes_nonneg_run ops initSt h (by intro r hr; simp [initSt] at hr)
  refine ⟨hs, fun p => ?_⟩
  unfold get_player_state
  cases hfind : (run initSt ops).player_states.find? (fun r => r.player == p) with
  | none => exact Int.le_refl 0
  | some r => exact hs r (List.mem_of_find?_eq_some hfind)

/-- Closed instance of `strikes_nonneg_if_inputs_nonneg`. -/
theorem strikes_nonneg_if_inputs_nonneg_witness :
    (∀ op ∈ [Op.upsert "t" ⟨"carol", 2, 0, 0⟩], Op.strikesNonneg op = true) ∧
    ((∀ r ∈ (run initSt [Op.upsert "t" ⟨"carol", 2, 0, 0⟩]).player_states, 0 ≤ r.strikes) ∧
      ∀ p, 0 ≤ (get_player_state (run initSt [Op.upsert "t" ⟨"carol", 2, 0, 0⟩]) p).strikes) :=
  ⟨by decide, strikes_nonneg_if_inputs_nonneg [Op.upsert "t" ⟨"carol", 2, 0, 0⟩] (by decide)⟩

/-- C10 (counterexample to the claim as stated): `PlayerStateIn.strikes`
carries no non-negativity constraint, so upserting `strikes = -1` stores
`-1` and `get_player_state` returns it. -/
theorem negative_strikes_counterexample :
    (get_player_state (run initSt [Op.upsert "t" ⟨"a", -1, 0, 0⟩]) "a").strikes < 0 := by
  decide

/-- C9 (counterexample to the claim as stated): a `POST /player/state`
whose `player` field is the *empty string* passes pydantic validation
(`player : str` only requires presence, not non-emptiness) and the
handler writes a record keyed by `""` — the submission is neither
rejected nor side-effect-free. -/
theorem empty_player_accepted_counterexample :
    update_player_state_endpoint "t" initSt ⟨some "", some 0, some 0, some 0⟩ ≠ none ∧
    update_player_state_endpoint "t" initSt ⟨some "", some 0, some 0, some 0⟩
      ≠ some initSt := by
  decide

/-- C9 (amended): a submission *missing* its required player field is
rejected by validation before the handler — and hence before any store
interaction — runs, with no side effect (`none`, HTTP 422); likewise a
death event whose `instance_id` is absent or empty (the one field with a
`min_length=1` constraint) is rejected with no store change.  An empty
player *string*, by contrast, passes validation (see the
counterexample). -/
theorem missing_required_fields_rejected (now : String) (s : St) (r : PlayerStateReq)
    (q : DeathReq) (p : Option String) :
    (r.player = none → update_player_state_endpoint now s r = none) ∧
    (q.instance_id = none ∨ q.instance_id = some "" → post_death_endpoint now s q = none) ∧
    (p = none → parseStrikeActionIn p = none) := by
  refine ⟨?_, ?_, ?_⟩
  · intro h
    simp [update_player_state_endpoint, parsePlayerStateIn, h]
  · intro h
    rcases h with h | h
    · simp [post_death_endpoint, parseDeathEventIn, h]
    · unfold post_death_endpoint parseDeathEventIn
      rw [h]
      cases q.victim <;> cases q.cause <;> simp
  · intro h
    simp [parseStrikeActionIn, h]

/-- Closed instance of `missing_required_fields_rejected`: a player-state
submission with no `player` field, a death event with an empty
`instance_id`, and a strike body with no `player` field are all
rejected with the store untouched. -/
theorem missing_required_fields_rejected_witness :
    ((⟨none, some 1, some 0, some 0⟩ : PlayerStateReq).player = none ∧
      update_player_state_endpoint "t" initSt ⟨none, some 1, some 0, some 0⟩ = none) ∧
    (((⟨some "", some "a", some "v", some "c", none, none⟩ : DeathReq).instance_id = none ∨
        (⟨some "", some "a", some "v", some "c", none, none⟩ : DeathReq).instance_id
          = some "") ∧
      post_death_endpoint "t" initSt ⟨some "", some "a", some "v", some "c", none, none⟩
        = none) ∧
    ((none : Option String) = none ∧ parseStrikeActionIn none = none) :=
  ⟨⟨rfl, (missing_required_fields_rejected "t" initSt ⟨none, some 1, some 0, some 0⟩
      ⟨some "", some "a", some "v", some "c", none, none⟩ none).1 rfl⟩,
    ⟨Or.inr rfl, (missing_required_fields_rejected "t" initSt ⟨none, some 1, some 0, some 0⟩
      ⟨some "", some "a", some "v", some "c", none, none⟩ none).2.1 (Or.inr rfl)⟩,
    ⟨rfl, (missing_required_fields_rejected "t" initSt ⟨none, some 1, some 0, some 0⟩
      ⟨some "", some "a", some "v", some "c", none, none⟩ none).2.2 rfl⟩⟩
